import Mathlib

/-!
Verification of the SVG table generator (`src/assets/src/svg_gen/svg_gen.py`).

The Python module builds a tree of `SvgNode` objects (primitives, containers
and four layout "directive" pseudo-nodes), measures each node's width and
height by scanning its child list, and, in a single `generate(xpos, ypos)`
pass, stores every node's bounding box (`x1, y1, x2, y2, w, h`) and emits the
SVG markup.  A separate routine `gen_html` walks an already-generated tree and
collects one rectangular image-map region per `SvgLink` node.

Shallow embedding used here:
* Python numbers are modelled as rationals (`ℚ`); the one place the source
  uses `sqrt` (the `SvgLine` thickness inflation) is modelled over `ℝ` with
  `Real.sqrt` in standalone definitions.
* The emitted markup string is modelled as a list of `Tag` values, one per
  f-string the source emits, carrying the same fields the f-string
  interpolates (in particular the numeric attributes).
* The mutable geometry fields written by `generate` are modelled by returning
  a geometry-annotated copy of the tree (`GTree`); children that `generate`
  skips keep the all-zero geometry the Python class attributes start with.
* `SvgConf.text_width` consults an abstract cairo measurement oracle
  `cairoExtents` which returns either the measured extents width or the
  exception message; the memoization cache, which is invisible to the result
  for a deterministic oracle, is not modelled.
-/

namespace SvgGen

/-- Configuration object (`SvgConf`).  `cairoExtents text bold` stands for the
cairo `text_extents` width for the configured font, or the raised exception's
message when the rendering backend fails. -/
structure SvgConf where
  font_size : ℚ
  font_family : String
  stroke_width : ℚ
  padding_x : ℚ
  padding_y : ℚ
  cairoExtents : String → Bool → Except String ℚ

/-- `SvgConf.line_height`: `font_size * LINE_HEIGHT_RATIO` with the constant
`20 / 12`. -/
def SvgConf.line_height (conf : SvgConf) : ℚ :=
  conf.font_size * (20 / 12)

/-- `SvgConf.text_width`: empty text measures 0; otherwise the cairo extents
width scaled by `TEXT_WIDTH_SCALE_FACTOR = 1.5`, falling back on failure to
`len(text) * font_size * (0.7 if bold else 0.65)`. -/
def SvgConf.text_width (conf : SvgConf) (text : String) (bold : Bool) : ℚ :=
  if text = "" then 0
  else
    match conf.cairoExtents text bold with
    | .ok w => w * (3 / 2)
    | .error _ => (text.length : ℚ) * conf.font_size * (if bold then 7 / 10 else 13 / 20)

/-- The concrete `SvgNode` subclasses, with the scalar fields their
constructors store.  `line` carries the stored `rat` field
(`stroke_width / sqrt(dx^2 + dy^2)`, computed in `SvgLine.__init__`;
see `lineRat` below for the real-valued formula). -/
inductive SvgKind where
  | moveTo (x y : ℚ)
  | cr
  | lf
  | advancer (dx dy : ℚ)
  | xml
  | svg (id : String)
  | group
  | line (dx dy : ℚ) (stroke_color : String) (stroke_width rat : ℚ)
  | text (text : String) (blod : Bool)
  | textCenter (text : String) (w h : ℚ) (blod : Bool)
  | link (href : String)
  | rect (w h : ℚ) (fill_color : String)
  | rectContainer (fill_color : String)
deriving DecidableEq, Repr

/-- A node: its class/constructor data plus the ordered `children` list. -/
inductive SvgNode where
  | mk (kind : SvgKind) (children : List SvgNode)

def SvgNode.kind : SvgNode → SvgKind
  | .mk k _ => k

def SvgNode.children : SvgNode → List SvgNode
  | .mk _ cs => cs

/-- The three child kinds `width`/`height`/`generate` treat as pure cursor
directives (`SvgMoveTo`, `SvgCR`, `SvgLF`): skipped by `generate`, special
cased in the measurement scans.  `SvgAdvancer` is not among them. -/
def isCursorDirective : SvgKind → Bool
  | .moveTo _ _ => true
  | .cr => true
  | .lf => true
  | _ => false

/-- Kinds whose class does not override `width`/`height`, so the base
`SvgNode` implementations (intrinsic size or child scan) apply. -/
def usesBaseSize : SvgKind → Bool
  | .advancer _ _ => false
  | .line _ _ _ _ _ => false
  | .text _ _ => false
  | .textCenter _ _ _ _ => false
  | _ => true

/-- The value of the `self.w` class attribute right after `__init__`:
`SvgRect` and `SvgTextCenter` set it in their constructors, every other
class leaves the class default `0`. -/
def intrinsicW : SvgKind → ℚ
  | .rect w _ _ => w
  | .textCenter _ w _ _ => w
  | _ => 0

/-- The value of the `self.h` class attribute right after `__init__`. -/
def intrinsicH : SvgKind → ℚ
  | .rect _ h _ => h
  | .textCenter _ _ h _ => h
  | _ => 0

/-- Python's `max` over a non-empty list (the `[]` case is arbitrary and
never reached by the embedding: both scans always append a final entry). -/
def maxList : List ℚ → ℚ
  | [] => 0
  | [x] => x
  | x :: y :: rest => max x (maxList (y :: rest))

mutual

/-- `SvgNode.width` and its overrides.  The base implementation returns the
intrinsic `self.w` for a childless node and otherwise scans the children:
`SvgMoveTo` closes the current run and seeds the accumulator with its target
x, `SvgCR` closes the run and resets the accumulator to 0, every other child
adds its own `width()`; the result is the maximum over the collected runs. -/
def width (conf : SvgConf) : SvgNode → ℚ
  | .mk (.advancer dx _) _ => dx
  | .mk (.line dx dy _ _ rat) _ => dx + dy * rat
  | .mk (.text t b) _ => conf.text_width t b + conf.padding_x * 2
  | .mk (.textCenter t w _ b) _ => max w (conf.text_width t b + conf.padding_x * 2)
  | .mk k cs => if cs.isEmpty then intrinsicW k else maxList (widthRuns conf cs 0)

/-- The `widths` list built by the loop in `SvgNode.width`, given the children
still to scan and the current accumulator `n_width`. -/
def widthRuns (conf : SvgConf) : List SvgNode → ℚ → List ℚ
  | [], nw => [nw]
  | .mk (.moveTo x _) _ :: rest, nw => nw :: widthRuns conf rest x
  | .mk .cr _ :: rest, nw => nw :: widthRuns conf rest 0
  | c :: rest, nw => widthRuns conf rest (nw + width conf c)

end

mutual

/-- `SvgNode.height` and its overrides.  The base implementation scans the
children keeping a row accumulator `n_height`, a row list `heights` and a
section list `s_heights`: `SvgMoveTo` closes the current row and section and
seeds the accumulator with its target y, `SvgLF` closes the row, every other
child maxes its `height()` into the accumulator; the result is the maximum
over the section sums. -/
def height (conf : SvgConf) : SvgNode → ℚ
  | .mk (.advancer _ dy) _ => dy
  | .mk (.line dx dy _ _ rat) _ => dy + dx * rat
  | .mk (.text _ _) _ => conf.line_height + conf.padding_y * 2
  | .mk (.textCenter _ _ h _) _ => max h (conf.line_height + conf.padding_y * 2)
  | .mk k cs => if cs.isEmpty then intrinsicH k else maxList (heightSections conf cs [] 0)

/-- The `s_heights` list built by the loop in `SvgNode.height`, given the
children still to scan, the current row list `heights` and the current row
accumulator `n_height`. -/
def heightSections (conf : SvgConf) : List SvgNode → List ℚ → ℚ → List ℚ
  | [], hs, nh => [(hs ++ [nh]).sum]
  | .mk (.moveTo _ y) _ :: rest, hs, nh => (hs ++ [nh]).sum :: heightSections conf rest [] y
  | .mk .lf _ :: rest, hs, nh => heightSections conf rest (hs ++ [nh]) 0
  | c :: rest, hs, nh => heightSections conf rest hs (max nh (height conf c))

end

/-- The six numeric geometry attributes every `SvgNode` carries. -/
structure Geom where
  x1 : ℚ
  y1 : ℚ
  x2 : ℚ
  y2 : ℚ
  w : ℚ
  h : ℚ
deriving DecidableEq, Repr

/-- The class-attribute defaults: all six geometry fields start at 0 and stay
there until (unless) `generate` is invoked on the node. -/
def zeroGeom : Geom := ⟨0, 0, 0, 0, 0, 0⟩

/-- One emitted markup fragment, carrying exactly the fields the
corresponding f-string in the source interpolates. -/
inductive Tag where
  | xmlDecl
  | svgOpen (id font_family : String) (h w font_size : ℚ)
  | svgClose
  | gOpen
  | gClose
  | lineTag (x1 y1 x2 y2 : ℚ) (stroke_color : String) (stroke_width : ℚ)
  | textOpen (x y : ℚ) (bold : Bool) (h wAttr : ℚ) (content : String)
  | textClose
  | textCenterOpen (x y : ℚ) (bold : Bool) (h wAttr : ℚ) (content : String)
  | linkOpen (href : String)
  | linkClose
  | rectTag (x y w h : ℚ) (fill : String)
deriving DecidableEq, Repr

/-- A node together with the geometry fields it holds after a `generate`
call: the shape of the Python tree is unchanged, only `x1..h` are written. -/
inductive GTree where
  | mk (kind : SvgKind) (geom : Geom) (children : List GTree)

def GTree.kind : GTree → SvgKind
  | .mk k _ _ => k

def GTree.geom : GTree → Geom
  | .mk _ g _ => g

def GTree.children : GTree → List GTree
  | .mk _ _ cs => cs

mutual

/-- A node that `generate` never touches, annotated with the initial
all-zero geometry (recursively). -/
def initTree : SvgNode → GTree
  | .mk k cs => .mk k zeroGeom (initTrees cs)

def initTrees : List SvgNode → List GTree
  | [] => []
  | c :: rest => initTree c :: initTrees rest

end

mutual

/-- Forget the geometry annotations again. -/
def GTree.erase : GTree → SvgNode
  | .mk k _ cs => .mk k (eraseList cs)

def eraseList : List GTree → List SvgNode
  | [] => []
  | c :: rest => c.erase :: eraseList rest

end

/-- `gen_begin` of each class, evaluated after `generate` stored the geometry
`g` (the source writes the fields before calling `gen_begin`). -/
def genBegin (conf : SvgConf) (k : SvgKind) (g : Geom) : List Tag :=
  match k with
  | .moveTo _ _ => []
  | .cr => []
  | .lf => []
  | .advancer _ _ => []
  | .xml => [.xmlDecl]
  | .svg id => [.svgOpen id conf.font_family g.h g.w conf.font_size]
  | .group => [.gOpen]
  | .line dx dy stroke_color stroke_width rat =>
    [.lineTag (g.x1 + dy * rat / 2) (g.y1 + dx * rat / 2)
      (g.x1 + dx + dy * rat / 2) (g.y1 + dy + dx * rat / 2) stroke_color stroke_width]
  | .text t b =>
    [.textOpen (g.x1 + conf.padding_x) (g.y1 + g.h / 2) b g.h (conf.text_width t false) t]
  | .textCenter t _ _ b =>
    [.textCenterOpen (g.x1 + (g.w / 2 - conf.text_width t b / 2)) (g.y1 + g.h / 2)
      b g.h (conf.text_width t false) t]
  | .link href => [.linkOpen href]
  | .rect _ _ fill_color => [.rectTag g.x1 g.y1 g.w g.h fill_color]
  | .rectContainer fill_color => [.rectTag g.x1 g.y1 g.w g.h fill_color]

/-- `gen_end` of each class. -/
def genEnd : SvgKind → List Tag
  | .svg _ => [.svgClose]
  | .group => [.gClose]
  | .text _ _ => [.textClose]
  | .textCenter _ _ _ _ => [.textClose]
  | .link _ => [.linkClose]
  | _ => []

mutual

/-- `SvgNode.generate(xpos, ypos)`: store `x1 = xpos`, `y1 = ypos`,
`h = height()`, `w = width()`, `x2 = xpos + w`, `y2 = ypos + h`, then emit
`gen_begin`, the children's markup (walking them with a local cursor), and
`gen_end`.  Returns the geometry-annotated tree and the emitted markup. -/
def generate (conf : SvgConf) : SvgNode → ℚ → ℚ → GTree × List Tag
  | .mk k cs, xpos, ypos =>
    let h := height conf (.mk k cs)
    let w := width conf (.mk k cs)
    let g : Geom := ⟨xpos, ypos, xpos + w, ypos + h, w, h⟩
    let sub := genChildren conf cs xpos ypos 0 0
    (.mk k g sub.1, genBegin conf k g ++ sub.2 ++ genEnd k)

/-- The child loop of `generate`: the local cursor `(xpos, ypos)` and the two
trackers `n_width`, `n_height`.  `SvgMoveTo` sets all four to its target,
`SvgCR` zeroes `xpos` and `n_width`, `SvgLF` advances `ypos` by `n_height`
and zeroes `n_height`; every other child is recursively generated at the
cursor, after which `xpos` and `n_width` advance by its width and `n_height`
maxes with its height.  Skipped directive children keep their initial
all-zero geometry and contribute no markup. -/
def genChildren (conf : SvgConf) :
    List SvgNode → ℚ → ℚ → ℚ → ℚ → List GTree × List Tag
  | [], _, _, _, _ => ([], [])
  | .mk (.moveTo mx my) ccs :: rest, _, _, _, _ =>
    let sub := genChildren conf rest mx my mx my
    (initTree (.mk (.moveTo mx my) ccs) :: sub.1, sub.2)
  | .mk .cr ccs :: rest, _, ypos, _, nh =>
    let sub := genChildren conf rest 0 ypos 0 nh
    (initTree (.mk .cr ccs) :: sub.1, sub.2)
  | .mk .lf ccs :: rest, xpos, ypos, nw, nh =>
    let sub := genChildren conf rest xpos (ypos + nh) nw 0
    (initTree (.mk .lf ccs) :: sub.1, sub.2)
  | c :: rest, xpos, ypos, nw, nh =>
    let cg := generate conf c xpos ypos
    let sub := genChildren conf rest (xpos + width conf c) ypos
      (nw + width conf c) (max nh (height conf c))
    (cg.1 :: sub.1, cg.2 ++ sub.2)

end

mutual

/-- `SvgNode.walk`: depth-first, children first, then the node itself. -/
def GTree.walk : GTree → List GTree
  | .mk k g cs => walkList cs ++ [.mk k g cs]

def walkList : List GTree → List GTree
  | [] => []
  | c :: rest => c.walk ++ walkList rest

end

/-- One `<area shape="rect">` entry of the html map. -/
structure RectRegion where
  x1 : ℚ
  y1 : ℚ
  x2 : ℚ
  y2 : ℚ
  alt : String
  href : String
deriving DecidableEq, Repr

/-- `href.split('/')[-1]`. -/
def lastSegment (href : String) : String :=
  (href.splitOn "/").getLastD ""

/-- The region `gen_html` emits for a node, if any: only `SvgLink` nodes
produce one, from their stored geometry and the trailing segment of `href`. -/
def linkRegion : GTree → Option RectRegion
  | .mk (.link href) g _ => some ⟨g.x1, g.y1, g.x2, g.y2, lastSegment href, href⟩
  | _ => none

/-- `gen_html`, restricted to the content of the generated `<map>` element:
the list of rectangular hit regions harvested from the walked tree. -/
def gen_html (svg : GTree) : List RectRegion :=
  svg.walk.filterMap linkRegion

/-- A value a caller may pass to `add_child`: an actual node, or anything
else (described only by a string, which plays no semantic role). -/
inductive PyVal where
  | node (n : SvgNode)
  | nonNode (descr : String)

/-- The exception raised by `add_child`, if any. -/
inductive SvgError where
  | typeError (msg : String)
  | runtimeError (msg : String)
deriving DecidableEq, Repr

/-- Classes that override `add_child` with an unconditional
`raise RuntimeError(...)`: the four directives and the childless-only
primitives. -/
def forbidsChildren : SvgKind → Bool
  | .moveTo _ _ => true
  | .cr => true
  | .lf => true
  | .advancer _ _ => true
  | .line _ _ _ _ _ => true
  | .text _ _ => true
  | .textCenter _ _ _ _ => true
  | .rect _ _ _ => true
  | _ => false

/-- The message of the `RuntimeError` each overriding class raises. -/
def childErrMsg : SvgKind → String
  | .advancer _ _ => "Cannot add child to advancer!"
  | .moveTo _ _ => "Cannot add child to moveTo!"
  | .cr => "Cannot add child to CR!"
  | .lf => "Cannot add child to LF!"
  | .line _ _ _ _ _ => "Cannot add child to line!"
  | .text _ _ => "Cannot add child to text!"
  | .textCenter _ _ _ _ => "Cannot add child to text!"
  | .rect _ _ _ => "Cannot add child to rect!"
  | _ => ""

/-- `add_child`: the overriding classes raise their `RuntimeError` without
looking at the argument; the base implementation raises `TypeError` for a
non-node argument and otherwise appends the child.  On error the parent's
child list is unchanged (no node is returned). -/
def add_child (parent : SvgNode) (child : PyVal) : Except SvgError SvgNode :=
  if forbidsChildren parent.kind then
    .error (.runtimeError (childErrMsg parent.kind))
  else
    match child with
    | .node c => .ok (.mk parent.kind (parent.children ++ [c]))
    | .nonNode _ => .error (.typeError "Child must be an SvgNode instance")

/-- Does `add_child` report a `TypeError`? -/
def isTypeErrorResult : Except SvgError SvgNode → Bool
  | .error (.typeError _) => true
  | _ => false

/-- `SvgLine.__init__`: the stored perpendicular ratio
`self.rat = stroke_width / sqrt(dx ** 2 + dy ** 2)`. -/
noncomputable def lineRat (dx dy stroke_width : ℝ) : ℝ :=
  stroke_width / Real.sqrt (dx ^ 2 + dy ^ 2)

/-- `SvgLine.width`: `dx + dy * rat`. -/
noncomputable def lineWidth (dx dy stroke_width : ℝ) : ℝ :=
  dx + dy * lineRat dx dy stroke_width

/-- `SvgLine.height`: `dy + dx * rat`. -/
noncomputable def lineHeight (dx dy stroke_width : ℝ) : ℝ :=
  dy + dx * lineRat dx dy stroke_width

/-- `SvgLine.gen_begin`, `x1` attribute: `self.x1 + self.dy * self.rat / 2`. -/
noncomputable def lineEndX1 (x1 dx dy stroke_width : ℝ) : ℝ :=
  x1 + dy * lineRat dx dy stroke_width / 2

/-- `SvgLine.gen_begin`, `y1` attribute: `self.y1 + self.dx * self.rat / 2`. -/
noncomputable def lineEndY1 (y1 dx dy stroke_width : ℝ) : ℝ :=
  y1 + dx * lineRat dx dy stroke_width / 2

/-- `SvgLine.gen_begin`, `x2` attribute:
`self.x1 + self.dx + self.dy * self.rat / 2`. -/
noncomputable def lineEndX2 (x1 dx dy stroke_width : ℝ) : ℝ :=
  x1 + dx + dy * lineRat dx dy stroke_width / 2

/-- `SvgLine.gen_begin`, `y2` attribute:
`self.y1 + self.dy + self.dx * self.rat / 2`. -/
noncomputable def lineEndY2 (y1 dx dy stroke_width : ℝ) : ℝ :=
  y1 + dy + dx * lineRat dx dy stroke_width / 2

/-- The bounding-box relations `generate` is supposed to establish on the
node it was invoked on. -/
def geomOk (conf : SvgConf) (t : GTree) : Prop :=
  t.geom.x2 = t.geom.x1 + t.geom.w ∧ t.geom.y2 = t.geom.y1 + t.geom.h ∧
  t.geom.w = width conf t.erase ∧ t.geom.h = height conf t.erase

mutual

/-- `geomOk` holds here and, recursively, at every descendant on which
`generate` was recursively invoked (cursor-directive children are skipped,
together with their subtrees). -/
def placedNode (conf : SvgConf) : GTree → Prop
  | .mk k g cs => geomOk conf (.mk k g cs) ∧ placedChildren conf cs

def placedChildren (conf : SvgConf) : List GTree → Prop
  | [] => True
  | c :: rest => (isCursorDirective c.kind = false → placedNode conf c) ∧ placedChildren conf rest

end

mutual

/-- The `(w, h)` pairs stored throughout a generated tree, in preorder. -/
def GTree.sizes : GTree → List (ℚ × ℚ)
  | .mk _ g cs => (g.w, g.h) :: sizesList cs

def sizesList : List GTree → List (ℚ × ℚ)
  | [] => []
  | c :: rest => c.sizes ++ sizesList rest

end

mutual

/-- Every geometry field in the subtree still holds the initial zeros. -/
def allZeroGeom : GTree → Prop
  | .mk _ g cs => g = zeroGeom ∧ allZeroList cs

def allZeroList : List GTree → Prop
  | [] => True
  | c :: rest => allZeroGeom c ∧ allZeroList rest

end

/-- Children that the width scan treats as plain flow (anything but
`SvgMoveTo` and `SvgCR`). -/
def widthFlow : SvgNode → Bool
  | .mk (.moveTo _ _) _ => false
  | .mk .cr _ => false
  | _ => true

/-- Children that the height scan treats as plain flow (anything but
`SvgMoveTo` and `SvgLF`). -/
def heightFlow : SvgNode → Bool
  | .mk (.moveTo _ _) _ => false
  | .mk .lf _ => false
  | _ => true

/-- Children that are none of the three cursor directives. -/
def plainFlow (c : SvgNode) : Bool :=
  !(isCursorDirective c.kind)

/-- The row accumulator a directive-free row produces: the running maximum of
the children's heights, started at 0. -/
def rowHeight (conf : SvgConf) (r : List SvgNode) : ℚ :=
  r.foldl (fun a c => max a (height conf c)) 0

/-- Does this generated node come from an `SvgLink`? -/
def isLinkNode : GTree → Bool
  | .mk (.link _) _ _ => true
  | _ => false

/-- A concrete configuration (the source defaults, with the cairo backend
failing) used by the witnesses. -/
def conf0 : SvgConf :=
  ⟨12, "Arial", 2, 5, 4, fun _ _ => .error "cairo unavailable"⟩

/-! ### Helper lemmas -/

mutual

/-- Mutual structural induction for `SvgNode` and its child lists. -/
theorem svgNode_ind {P : SvgNode → Prop} {Q : List SvgNode → Prop}
    (hmk : ∀ k cs, Q cs → P (.mk k cs)) (hnil : Q [])
    (hcons : ∀ c rest, P c → Q rest → Q (c :: rest)) : ∀ n, P n
  | .mk k cs => hmk k cs (svgList_ind hmk hnil hcons cs)

theorem svgList_ind {P : SvgNode → Prop} {Q : List SvgNode → Prop}
    (hmk : ∀ k cs, Q cs → P (.mk k cs)) (hnil : Q [])
    (hcons : ∀ c rest, P c → Q rest → Q (c :: rest)) : ∀ cs, Q cs
  | [] => hnil
  | c :: rest =>
    hcons c rest (svgNode_ind hmk hnil hcons c) (svgList_ind hmk hnil hcons rest)

end

mutual

/-- Mutual structural induction for `GTree` and its child lists. -/
theorem gtree_ind {P : GTree → Prop} {Q : List GTree → Prop}
    (hmk : ∀ k g cs, Q cs → P (.mk k g cs)) (hnil : Q [])
    (hcons : ∀ c rest, P c → Q rest → Q (c :: rest)) : ∀ t, P t
  | .mk k g cs => hmk k g cs (gtreeList_ind hmk hnil hcons cs)

theorem gtreeList_ind {P : GTree → Prop} {Q : List GTree → Prop}
    (hmk : ∀ k g cs, Q cs → P (.mk k g cs)) (hnil : Q [])
    (hcons : ∀ c rest, P c → Q rest → Q (c :: rest)) : ∀ cs, Q cs
  | [] => hnil
  | c :: rest =>
    hcons c rest (gtree_ind hmk hnil hcons c) (gtreeList_ind hmk hnil hcons rest)

end

theorem erase_initTree : ∀ n : SvgNode, (initTree n).erase = n := by
  refine @svgNode_ind (fun n => (initTree n).erase = n)
    (fun cs => eraseList (initTrees cs) = cs) ?_ ?_ ?_
  · intro k cs h
    simp [initTree, GTree.erase, h]
  · simp [initTrees, eraseList]
  · intro c rest hc hrest
    simp [initTrees, eraseList, hc, hrest]

theorem erase_genChildren (conf : SvgConf) :
    ∀ (cs : List SvgNode) (x y nw nh : ℚ),
      eraseList (genChildren conf cs x y nw nh).1 = cs := by
  refine @svgList_ind (fun n => ∀ x y, (generate conf n x y).1.erase = n)
    (fun cs => ∀ x y nw nh, eraseList (genChildren conf cs x y nw nh).1 = cs) ?_ ?_ ?_
  · intro k cs h x y
    simp [generate, GTree.erase, h]
  · intro x y nw nh
    simp [genChildren, eraseList]
  · intro c rest ihc ihr x y nw nh
    rcases c with ⟨k, ccs⟩
    cases k <;> simp [genChildren, eraseList, erase_initTree, ihc, ihr]

theorem erase_generate (conf : SvgConf) (n : SvgNode) (x y : ℚ) :
    (generate conf n x y).1.erase = n := by
  rcases n with ⟨k, cs⟩
  simp [generate, GTree.erase, erase_genChildren]

theorem generate_kind (conf : SvgConf) (n : SvgNode) (x y : ℚ) :
    (generate conf n x y).1.kind = n.kind := by
  rcases n with ⟨k, cs⟩
  simp [generate, GTree.kind, SvgNode.kind]

theorem generate_geom (conf : SvgConf) (n : SvgNode) (x y : ℚ) :
    (generate conf n x y).1.geom =
      ⟨x, y, x + width conf n, y + height conf n, width conf n, height conf n⟩ := by
  rcases n with ⟨k, cs⟩
  simp [generate, GTree.geom]

theorem width_base (conf : SvgConf) (k : SvgKind) (cs : List SvgNode)
    (hk : usesBaseSize k = true) (hcs : cs ≠ []) :
    width conf (.mk k cs) = maxList (widthRuns conf cs 0) := by
  cases k <;>
    simp_all [width, usesBaseSize, List.isEmpty_iff]

theorem height_base (conf : SvgConf) (k : SvgKind) (cs : List SvgNode)
    (hk : usesBaseSize k = true) (hcs : cs ≠ []) :
    height conf (.mk k cs) = maxList (heightSections conf cs [] 0) := by
  cases k <;>
    simp_all [height, usesBaseSize, List.isEmpty_iff]

theorem widthRuns_flow_cons (conf : SvgConf) (c : SvgNode) (l : List SvgNode)
    (nw : ℚ) (h : widthFlow c = true) :
    widthRuns conf (c :: l) nw = widthRuns conf l (nw + width conf c) := by
  rcases c with ⟨k, ccs⟩
  cases k <;> simp_all [widthRuns, widthFlow]

theorem widthRuns_flow (conf : SvgConf) (r : List SvgNode) :
    ∀ (rest : List SvgNode) (nw : ℚ), (∀ c ∈ r, widthFlow c = true) →
      widthRuns conf (r ++ rest) nw =
        widthRuns conf rest (nw + (r.map (width conf)).sum) := by
  induction r with
  | nil => intro rest nw _; simp
  | cons c r ih =>
    intro rest nw h
    rw [List.cons_append, widthRuns_flow_cons conf c _ nw (h c (List.mem_cons_self c r)),
      ih rest _ (fun d hd => h d (List.mem_cons_of_mem c hd))]
    congr 1
    simp [List.sum_cons]
    ring

theorem heightSections_flow_cons (conf : SvgConf) (c : SvgNode) (l : List SvgNode)
    (hs : List ℚ) (nh : ℚ) (h : heightFlow c = true) :
    heightSections conf (c :: l) hs nh =
      heightSections conf l hs (max nh (height conf c)) := by
  rcases c with ⟨k, ccs⟩
  cases k <;> simp_all [heightSections, heightFlow]

theorem heightSections_flow (conf : SvgConf) (r : List SvgNode) :
    ∀ (rest : List SvgNode) (hs : List ℚ) (nh : ℚ), (∀ c ∈ r, heightFlow c = true) →
      heightSections conf (r ++ rest) hs nh =
        heightSections conf rest hs (r.foldl (fun a c => max a (height conf c)) nh) := by
  induction r with
  | nil => intro rest hs nh _; simp
  | cons c r ih =>
    intro rest hs nh h
    rw [List.cons_append, heightSections_flow_cons conf c _ hs nh (h c (List.mem_cons_self c r)),
      ih rest hs _ (fun d hd => h d (List.mem_cons_of_mem c hd))]
    simp [List.foldl_cons]

theorem placed_genChildren (conf : SvgConf) :
    ∀ (cs : List SvgNode) (x y nw nh : ℚ),
      placedChildren conf (genChildren conf cs x y nw nh).1 := by
  refine @svgList_ind (fun n => ∀ x y, placedNode conf (generate conf n x y).1)
    (fun cs => ∀ x y nw nh, placedChildren conf (genChildren conf cs x y nw nh).1) ?_ ?_ ?_
  · intro k cs h x y
    refine ⟨?_, h x y 0 0⟩
    simp [geomOk, GTree.geom, GTree.erase, erase_genChildren, generate]
  · intro x y nw nh
    simp [genChildren, placedChildren]
  · intro c rest ihc ihr x y nw nh
    rcases c with ⟨k, ccs⟩
    cases k
    all_goals simp only [genChildren, placedChildren]
    case moveTo mx my =>
      refine ⟨?_, ihr _ _ _ _⟩
      intro h
      simp [initTree, GTree.kind, isCursorDirective] at h
    case cr =>
      refine ⟨?_, ihr _ _ _ _⟩
      intro h
      simp [initTree, GTree.kind, isCursorDirective] at h
    case lf =>
      refine ⟨?_, ihr _ _ _ _⟩
      intro h
      simp [initTree, GTree.kind, isCursorDirective] at h
    all_goals exact ⟨fun _ => ihc _ _, ihr _ _ _ _⟩

theorem placed_generate (conf : SvgConf) (n : SvgNode) (x y : ℚ) :
    placedNode conf (generate conf n x y).1 := by
  rcases n with ⟨k, cs⟩
  refine ⟨?_, ?_⟩
  · simp [geomOk, GTree.geom, GTree.erase, erase_genChildren, generate]
  · have h := placed_genChildren conf cs x y 0 0
    exact h

theorem sizes_genChildren (conf : SvgConf) :
    ∀ (cs : List SvgNode) (x y nw nh x' y' nw' nh' : ℚ),
      sizesList (genChildren conf cs x y nw nh).1 =
        sizesList (genChildren conf cs x' y' nw' nh').1 := by
  refine @svgList_ind
    (fun n => ∀ x y x' y',
      (generate conf n x y).1.sizes = (generate conf n x' y').1.sizes)
    (fun cs => ∀ x y nw nh x' y' nw' nh',
      sizesList (genChildren conf cs x y nw nh).1 =
        sizesList (genChildren conf cs x' y' nw' nh').1) ?_ ?_ ?_
  · intro k cs h x y x' y'
    simp only [generate, GTree.sizes]
    rw [h x y 0 0 x' y' 0 0]
  · intro x y nw nh x' y' nw' nh'
    rfl
  · intro c rest ihc ihr x y nw nh x' y' nw' nh'
    rcases c with ⟨k, ccs⟩
    cases k
    all_goals simp only [genChildren, sizesList]
    case cr =>
      congr 1
      exact ihr 0 y 0 nh 0 y' 0 nh'
    case lf =>
      congr 1
      exact ihr x (y + nh) nw 0 x' (y' + nh') nw' 0
    all_goals first
      | rfl
      | (rw [ihc x y x' y']
         congr 1
         exact ihr _ _ _ _ _ _ _ _)

theorem sizes_generate (conf : SvgConf) (n : SvgNode) (x y x' y' : ℚ) :
    (generate conf n x y).1.sizes = (generate conf n x' y').1.sizes := by
  rcases n with ⟨k, cs⟩
  simp only [generate, GTree.sizes]
  rw [sizes_genChildren conf cs x y 0 0 x' y' 0 0]

theorem allZero_initTree : ∀ n : SvgNode, allZeroGeom (initTree n) := by
  refine @svgNode_ind (fun n => allZeroGeom (initTree n))
    (fun cs => allZeroList (initTrees cs)) ?_ ?_ ?_
  · intro k cs h
    exact ⟨rfl, h⟩
  · simp [initTrees, allZeroList]
  · intro c rest hc hrest
    exact ⟨hc, hrest⟩

theorem generate_children (conf : SvgConf) (k : SvgKind) (cs : List SvgNode)
    (x y : ℚ) :
    (generate conf (.mk k cs) x y).1.children = (genChildren conf cs x y 0 0).1 := by
  simp [generate, GTree.children]

theorem genChildren_length (conf : SvgConf) (cs : List SvgNode) :
    ∀ (x y nw nh : ℚ), (genChildren conf cs x y nw nh).1.length = cs.length := by
  induction cs with
  | nil => intro x y nw nh; rfl
  | cons c rest ih =>
    intro x y nw nh
    rcases c with ⟨k, ccs⟩
    cases k <;> simp [genChildren, ih]

theorem genChildren_mem (conf : SvgConf) (cs : List SvgNode) :
    ∀ (x y nw nh : ℚ), ∀ p ∈ cs.zip (genChildren conf cs x y nw nh).1,
      (isCursorDirective p.1.kind = true → p.2 = initTree p.1 ∧ allZeroGeom p.2) ∧
      (isCursorDirective p.1.kind = false →
        ∃ cx cy, p.2 = (generate conf p.1 cx cy).1) := by
  induction cs with
  | nil =>
    intro x y nw nh p hp
    simp [genChildren] at hp
  | cons c rest ih =>
    intro x y nw nh p hp
    rcases c with ⟨k, ccs⟩
    cases k <;>
    · simp only [genChildren, List.zip_cons_cons, List.mem_cons] at hp
      rcases hp with hp | hp
      · subst hp
        constructor
        · intro ht
          first
            | exact ⟨rfl, allZero_initTree _⟩
            | simp [SvgNode.kind, isCursorDirective] at ht
        · intro hf
          first
            | exact ⟨x, y, rfl⟩
            | simp [SvgNode.kind, isCursorDirective] at hf
      · exact ih _ _ _ _ p hp

theorem genChildren_tags (conf : SvgConf) (cs : List SvgNode) :
    ∀ (x y nw nh : ℚ),
      (genChildren conf cs x y nw nh).2 =
        (cs.zip (genChildren conf cs x y nw nh).1).flatMap
          (fun p => if isCursorDirective p.1.kind then []
            else (generate conf p.1 p.2.geom.x1 p.2.geom.y1).2) := by
  induction cs with
  | nil => intro x y nw nh; rfl
  | cons c rest ih =>
    intro x y nw nh
    rcases c with ⟨k, ccs⟩
    cases k
    case moveTo mx my =>
      simp only [genChildren, List.zip_cons_cons, List.flatMap_cons,
        SvgNode.kind, isCursorDirective]
      simpa using ih mx my mx my
    case cr =>
      simp only [genChildren, List.zip_cons_cons, List.flatMap_cons,
        SvgNode.kind, isCursorDirective]
      simpa using ih 0 y 0 nh
    case lf =>
      simp only [genChildren, List.zip_cons_cons, List.flatMap_cons,
        SvgNode.kind, isCursorDirective]
      simpa using ih x (y + nh) nw 0
    all_goals
      simp only [genChildren, List.zip_cons_cons, List.flatMap_cons]
      rw [ih _ _ _ _]
      rfl

theorem le_foldl_max (l : List ℚ) : ∀ acc : ℚ, acc ≤ l.foldl max acc := by
  induction l with
  | nil => intro acc; simp
  | cons c rest ih =>
    intro acc
    exact le_trans (le_max_left acc c) (ih (max acc c))

theorem foldl_max_le_of_mem (l : List ℚ) :
    ∀ (acc q : ℚ), q ∈ l → q ≤ l.foldl max acc := by
  induction l with
  | nil => intro acc q h; simp at h
  | cons c rest ih =>
    intro acc q h
    rcases List.mem_cons.mp h with h | h
    · subst h
      exact le_trans (le_max_right acc q) (le_foldl_max rest _)
    · exact ih _ q h

theorem foldl_max_mem (l : List ℚ) :
    ∀ acc : ℚ, l.foldl max acc = acc ∨ l.foldl max acc ∈ l := by
  induction l with
  | nil => intro acc; left; rfl
  | cons c rest ih =>
    intro acc
    rcases ih (max acc c) with h | h
    · rcases max_choice acc c with hm | hm
      · left
        rw [List.foldl_cons, h, hm]
      · right
        rw [List.foldl_cons, h, hm]
        exact List.mem_cons_self c rest
    · right
      exact List.mem_cons_of_mem c h

theorem mem_intersperse {sep x : SvgNode} :
    ∀ {l : List SvgNode}, x ∈ List.intersperse sep l → x = sep ∨ x ∈ l := by
  intro l
  induction l with
  | nil => intro h; simp at h
  | cons c rest ih =>
    cases rest with
    | nil =>
      intro h
      simp [List.intersperse_singleton] at h
      simp [h]
    | cons c2 r2 =>
      intro h
      rw [List.intersperse_cons_cons] at h
      rcases List.mem_cons.mp h with h | h
      · right; simp [h]
      rcases List.mem_cons.mp h with h | h
      · left; exact h
      rcases ih h with h | h
      · left; exact h
      · right; exact List.mem_cons_of_mem c h

theorem intersperse_ne_nil {sep : SvgNode} {l : List SvgNode} (h : l ≠ []) :
    List.intersperse sep l ≠ [] := by
  cases l with
  | nil => exact absurd rfl h
  | cons c rest =>
    cases rest with
    | nil => simp [List.intersperse_singleton]
    | cons c2 r2 => simp [List.intersperse_cons_cons]

theorem map_sum_intersperse (f : SvgNode → ℚ) (sep : SvgNode) :
    ∀ l : List SvgNode,
      ((List.intersperse sep l).map f).sum =
        (l.map f).sum + ((l.length - 1 : ℕ) : ℚ) * f sep := by
  intro l
  induction l with
  | nil => simp
  | cons c rest ih =>
    cases rest with
    | nil => simp [List.intersperse_singleton]
    | cons c2 r2 =>
      rw [List.intersperse_cons_cons]
      simp only [List.map_cons, List.sum_cons, ih, List.length_cons]
      push_cast [Nat.succ_sub_one]
      ring

theorem foldl_max_intersperse (f : SvgNode → ℚ) (sep : SvgNode) (hsep : f sep = 0) :
    ∀ (l : List SvgNode) (acc : ℚ), 0 ≤ acc →
      (List.intersperse sep l).foldl (fun a c => max a (f c)) acc =
        l.foldl (fun a c => max a (f c)) acc := by
  intro l
  induction l with
  | nil => intro acc _; rfl
  | cons c rest ih =>
    cases rest with
    | nil => intro acc _; rw [List.intersperse_singleton]
    | cons c2 r2 =>
      intro acc hacc
      rw [List.intersperse_cons_cons, List.foldl_cons, List.foldl_cons, hsep,
        max_eq_left (le_trans hacc (le_max_left acc (f c))),
        ih _ (le_trans hacc (le_max_left acc (f c)))]
      simp [List.foldl_cons]

theorem length_filterMap_linkRegion (l : List GTree) :
    (l.filterMap linkRegion).length = l.countP (fun t => isLinkNode t) := by
  induction l with
  | nil => rfl
  | cons c rest ih =>
    rcases c with ⟨k, g, cs⟩
    cases k <;>
      simp [linkRegion, isLinkNode, List.filterMap_cons, List.countP_cons, ih]

theorem plainFlow_widthFlow {c : SvgNode} (h : plainFlow c = true) :
    widthFlow c = true := by
  rcases c with ⟨k, ccs⟩
  cases k <;> simp_all [plainFlow, widthFlow, isCursorDirective, SvgNode.kind]

theorem plainFlow_heightFlow {c : SvgNode} (h : plainFlow c = true) :
    heightFlow c = true := by
  rcases c with ⟨k, ccs⟩
  cases k <;> simp_all [plainFlow, heightFlow, isCursorDirective, SvgNode.kind]

theorem placedNode_geomOk (conf : SvgConf) (t : GTree) (h : placedNode conf t) :
    geomOk conf t := by
  rcases t with ⟨k, g, cs⟩
  exact h.1

/-! ### The claims -/

/-- C1: for a node with children (base `height`), the result is the
section/row algorithm: flow children max into the row accumulator, `SvgLF`
closes a row (rows of one section add), `SvgMoveTo` closes row and section
and seeds the accumulator with its target y, and the result is the maximum
over section sums.  In particular two rows separated by a line feed give
`row1 + row2`, while separated by a cursor jump with target y = 0 they give
`max row1 row2`. -/
theorem height_row_section_algorithm (conf : SvgConf) :
    (∀ (k : SvgKind) (cs : List SvgNode), usesBaseSize k = true → cs ≠ [] →
      height conf (.mk k cs) = maxList (heightSections conf cs [] 0)) ∧
    (∀ (r rest : List SvgNode) (hs : List ℚ) (nh : ℚ),
      (∀ c ∈ r, heightFlow c = true) →
      heightSections conf (r ++ rest) hs nh =
        heightSections conf rest hs (r.foldl (fun a c => max a (height conf c)) nh)) ∧
    (∀ (ccs rest : List SvgNode) (hs : List ℚ) (nh : ℚ),
      heightSections conf (.mk .lf ccs :: rest) hs nh =
        heightSections conf rest (hs ++ [nh]) 0) ∧
    (∀ (mx my : ℚ) (ccs rest : List SvgNode) (hs : List ℚ) (nh : ℚ),
      heightSections conf (.mk (.moveTo mx my) ccs :: rest) hs nh =
        (hs ++ [nh]).sum :: heightSections conf rest [] my) ∧
    (∀ (r1 r2 : List SvgNode),
      (∀ c ∈ r1, heightFlow c = true) → (∀ c ∈ r2, heightFlow c = true) →
      height conf (.mk .group (r1 ++ .mk .lf [] :: r2)) =
        rowHeight conf r1 + rowHeight conf r2) ∧
    (∀ (mx : ℚ) (r1 r2 : List SvgNode),
      (∀ c ∈ r1, heightFlow c = true) → (∀ c ∈ r2, heightFlow c = true) →
      height conf (.mk .group (r1 ++ .mk (.moveTo mx 0) [] :: r2)) =
        max (rowHeight conf r1) (rowHeight conf r2)) := by
  refine ⟨height_base conf, heightSections_flow conf, ?_, ?_, ?_, ?_⟩
  · intro ccs rest hs nh
    simp [heightSections]
  · intro mx my ccs rest hs nh
    simp [heightSections]
  · intro r1 r2 h1 h2
    have hne : r1 ++ SvgNode.mk .lf [] :: r2 ≠ [] := by simp
    rw [height_base conf .group _ rfl hne, heightSections_flow conf r1 _ [] 0 h1]
    have h3 : heightSections conf (SvgNode.mk .lf [] :: r2) []
        (rowHeight conf r1) = heightSections conf r2 [rowHeight conf r1] 0 := by
      simp [heightSections]
    rw [show r1.foldl (fun a c => max a (height conf c)) 0 = rowHeight conf r1 from rfl, h3]
    have h4 := heightSections_flow conf r2 [] [rowHeight conf r1] 0 h2
    rw [List.append_nil] at h4
    rw [h4]
    simp [heightSections, maxList, rowHeight]
  · intro mx r1 r2 h1 h2
    have hne : r1 ++ SvgNode.mk (.moveTo mx 0) [] :: r2 ≠ [] := by simp
    rw [height_base conf .group _ rfl hne, heightSections_flow conf r1 _ [] 0 h1]
    have h3 : heightSections conf (SvgNode.mk (.moveTo mx 0) [] :: r2) []
        (rowHeight conf r1) =
        ([] ++ [rowHeight conf r1]).sum :: heightSections conf r2 [] 0 := by
      simp [heightSections]
    rw [show r1.foldl (fun a c => max a (height conf c)) 0 = rowHeight conf r1 from rfl, h3]
    have h4 := heightSections_flow conf r2 [] [] 0 h2
    rw [List.append_nil] at h4
    rw [h4]
    simp [heightSections, maxList, rowHeight]

/-- Witness for C1 at the default configuration: two one-rectangle rows
(heights 5 and 7): a line feed between them gives 5 + 7 = 12, a cursor jump
to y = 0 gives max 5 7 = 7. -/
theorem height_row_section_algorithm_witness :
    height conf0 (.mk .group
      ([SvgNode.mk (.rect 3 5 "f") []] ++
        SvgNode.mk .lf [] :: [SvgNode.mk (.rect 2 7 "f") []])) = 12 ∧
    height conf0 (.mk .group
      ([SvgNode.mk (.rect 3 5 "f") []] ++
        SvgNode.mk (.moveTo 0 0) [] :: [SvgNode.mk (.rect 2 7 "f") []])) = 7 := by
  constructor
  · have h := (height_row_section_algorithm conf0).2.2.2.2.1
      [SvgNode.mk (.rect 3 5 "f") []] [SvgNode.mk (.rect 2 7 "f") []]
      (by simp [heightFlow]) (by simp [heightFlow])
    rw [h]
    norm_num [rowHeight, height, intrinsicH]
  · have h := (height_row_section_algorithm conf0).2.2.2.2.2 0
      [SvgNode.mk (.rect 3 5 "f") []] [SvgNode.mk (.rect 2 7 "f") []]
      (by simp [heightFlow]) (by simp [heightFlow])
    rw [h]
    norm_num [rowHeight, height, intrinsicH]

/-- C2: for a node with children (base `width`), the result is the run
algorithm: flow children add their width to the accumulator, `SvgCR` closes
the run and resets the accumulator to 0, `SvgMoveTo` closes the run and
resets the accumulator to its target x, the final run is closed after the
scan, and the result is the maximum run value. -/
theorem width_run_algorithm (conf : SvgConf) :
    (∀ (k : SvgKind) (cs : List SvgNode), usesBaseSize k = true → cs ≠ [] →
      width conf (.mk k cs) = maxList (widthRuns conf cs 0)) ∧
    (∀ (r rest : List SvgNode) (nw : ℚ),
      (∀ c ∈ r, widthFlow c = true) →
      widthRuns conf (r ++ rest) nw =
        widthRuns conf rest (nw + (r.map (width conf)).sum)) ∧
    (∀ (ccs rest : List SvgNode) (nw : ℚ),
      widthRuns conf (.mk .cr ccs :: rest) nw = nw :: widthRuns conf rest 0) ∧
    (∀ (mx my : ℚ) (ccs rest : List SvgNode) (nw : ℚ),
      widthRuns conf (.mk (.moveTo mx my) ccs :: rest) nw =
        nw :: widthRuns conf rest mx) ∧
    (∀ nw : ℚ, widthRuns conf [] nw = [nw]) := by
  refine ⟨width_base conf, widthRuns_flow conf, ?_, ?_, ?_⟩
  · intro ccs rest nw
    simp [widthRuns]
  · intro mx my ccs rest nw
    simp [widthRuns]
  · intro nw
    simp [widthRuns]

/-- Witness for C2 at the default configuration: rectangles of widths 3 and
4 on one run give width 7; a carriage return between them gives max 3 4 = 4;
a cursor jump to x = 10 before a width-4 rectangle gives max 3 14 = 14. -/
theorem width_run_algorithm_witness :
    widthRuns conf0 ([SvgNode.mk (.rect 3 1 "f") [], SvgNode.mk (.rect 4 1 "f") []] ++ []) 0 =
      widthRuns conf0 [] (0 + ((3 : ℚ) + (4 + 0))) ∧
    widthRuns conf0 (.mk .cr [] :: [SvgNode.mk (.rect 4 1 "f") []]) 3 =
      3 :: widthRuns conf0 [SvgNode.mk (.rect 4 1 "f") []] 0 ∧
    widthRuns conf0 (.mk (.moveTo 10 0) [] :: [SvgNode.mk (.rect 4 1 "f") []]) 3 =
      3 :: widthRuns conf0 [SvgNode.mk (.rect 4 1 "f") []] 10 ∧
    width conf0 (.mk .group [SvgNode.mk (.rect 3 1 "f") [], SvgNode.mk .cr [],
      SvgNode.mk (.rect 4 1 "f") []]) = maxList (widthRuns conf0
        [SvgNode.mk (.rect 3 1 "f") [], SvgNode.mk .cr [],
          SvgNode.mk (.rect 4 1 "f") []] 0) := by
  refine ⟨?_, ?_, ?_, ?_⟩
  · have h := (width_run_algorithm conf0).2.1
      [SvgNode.mk (.rect 3 1 "f") [], SvgNode.mk (.rect 4 1 "f") []] [] 0
      (by simp [widthFlow])
    simpa [width, intrinsicW] using h
  · exact (width_run_algorithm conf0).2.2.1 [] [SvgNode.mk (.rect 4 1 "f") []] 3
  · exact (width_run_algorithm conf0).2.2.2.1 10 0 [] [SvgNode.mk (.rect 4 1 "f") []] 3
  · exact (width_run_algorithm conf0).1 .group
      [SvgNode.mk (.rect 3 1 "f") [], SvgNode.mk .cr [], SvgNode.mk (.rect 4 1 "f") []]
      rfl (by simp)

/-- C3: immediately after `generate(x, y)` the stored geometry of the node
satisfies `x1 = x`, `y1 = y`, `w = width()`, `h = height()`, `x2 = x1 + w`,
`y2 = y1 + h`; the same relations hold at every recursively generated
descendant (`placedNode`); and the stored `(w, h)` pairs of the whole tree
are independent of the root offset. -/
theorem generate_bounding_boxes (conf : SvgConf) (n : SvgNode) (x y : ℚ) :
    (generate conf n x y).1.geom.x1 = x ∧
    (generate conf n x y).1.geom.y1 = y ∧
    (generate conf n x y).1.geom.w = width conf n ∧
    (generate conf n x y).1.geom.h = height conf n ∧
    (generate conf n x y).1.geom.x2 =
      (generate conf n x y).1.geom.x1 + (generate conf n x y).1.geom.w ∧
    (generate conf n x y).1.geom.y2 =
      (generate conf n x y).1.geom.y1 + (generate conf n x y).1.geom.h ∧
    placedNode conf (generate conf n x y).1 ∧
    (∀ x' y' : ℚ, (generate conf n x y).1.sizes = (generate conf n x' y').1.sizes) := by
  refine ⟨?_, ?_, ?_, ?_, ?_, ?_, placed_generate conf n x y,
    fun x' y' => sizes_generate conf n x y x' y'⟩
  all_goals simp [generate_geom]

/-- Witness for C3: a group of a rectangle and a line feed generated at
`(1, 2)`. -/
theorem generate_bounding_boxes_witness :
    (generate conf0 (.mk .group [SvgNode.mk (.rect 3 4 "f") [], SvgNode.mk .lf []]) 1 2).1.geom.x1 = 1 ∧
    (generate conf0 (.mk .group [SvgNode.mk (.rect 3 4 "f") [], SvgNode.mk .lf []]) 1 2).1.geom.y1 = 2 ∧
    (generate conf0 (.mk .group [SvgNode.mk (.rect 3 4 "f") [], SvgNode.mk .lf []]) 1 2).1.geom.w =
      width conf0 (.mk .group [SvgNode.mk (.rect 3 4 "f") [], SvgNode.mk .lf []]) ∧
    (generate conf0 (.mk .group [SvgNode.mk (.rect 3 4 "f") [], SvgNode.mk .lf []]) 1 2).1.geom.h =
      height conf0 (.mk .group [SvgNode.mk (.rect 3 4 "f") [], SvgNode.mk .lf []]) ∧
    placedNode conf0
      (generate conf0 (.mk .group [SvgNode.mk (.rect 3 4 "f") [], SvgNode.mk .lf []]) 1 2).1 ∧
    (generate conf0 (.mk .group [SvgNode.mk (.rect 3 4 "f") [], SvgNode.mk .lf []]) 1 2).1.sizes =
      (generate conf0 (.mk .group [SvgNode.mk (.rect 3 4 "f") [], SvgNode.mk .lf []]) 5 9).1.sizes := by
  have h := generate_bounding_boxes conf0
    (.mk .group [SvgNode.mk (.rect 3 4 "f") [], SvgNode.mk .lf []]) 1 2
  exact ⟨h.1, h.2.1, h.2.2.1, h.2.2.2.1, h.2.2.2.2.2.2.1, h.2.2.2.2.2.2.2 5 9⟩

/-- C4: for a line with delta `(dx, dy)` and stroke width `s`, the stored
perpendicular ratio is `r = s / sqrt(dx^2 + dy^2)`, the reported bounding
box is `width = dx + dy*r` and `height = dy + dx*r`, and the emitted
endpoints span the original `(dx, dy)` vector recentered inside the inflated
box; concretely `dx = 3, dy = 4, s = 5` gives `r = 1`, width 7, height 7. -/
theorem line_thickness_inflation :
    (∀ dx dy sw x1 y1 : ℝ,
      lineRat dx dy sw = sw / Real.sqrt (dx ^ 2 + dy ^ 2) ∧
      lineWidth dx dy sw = dx + dy * (sw / Real.sqrt (dx ^ 2 + dy ^ 2)) ∧
      lineHeight dx dy sw = dy + dx * (sw / Real.sqrt (dx ^ 2 + dy ^ 2)) ∧
      lineEndX2 x1 dx dy sw - lineEndX1 x1 dx dy sw = dx ∧
      lineEndY2 y1 dx dy sw - lineEndY1 y1 dx dy sw = dy ∧
      lineEndX1 x1 dx dy sw - x1 = (lineWidth dx dy sw - dx) / 2 ∧
      lineEndY1 y1 dx dy sw - y1 = (lineHeight dx dy sw - dy) / 2) ∧
    lineRat 3 4 5 = 1 ∧ lineWidth 3 4 5 = 7 ∧ lineHeight 3 4 5 = 7 := by
  have hsqrt : Real.sqrt ((3 : ℝ) ^ 2 + 4 ^ 2) = 5 := by
    rw [show ((3 : ℝ) ^ 2 + 4 ^ 2) = 5 ^ 2 by norm_num]
    exact Real.sqrt_sq (by norm_num)
  have hrat : lineRat 3 4 5 = 1 := by
    rw [lineRat, hsqrt]
    norm_num
  refine ⟨?_, hrat, ?_, ?_⟩
  · intro dx dy sw x1 y1
    refine ⟨rfl, rfl, rfl, ?_, ?_, ?_, ?_⟩ <;>
      simp only [lineEndX1, lineEndY1, lineEndX2, lineEndY2, lineWidth, lineHeight] <;>
      ring
  · rw [lineWidth, hrat]
    norm_num
  · rw [lineHeight, hrat]
    norm_num

/-- C5: a row of N children (none of them cursor directives) separated by
fixed advances of value `a` measures `sum of widths + (N-1)*a` wide and, when
the heights are non-negative, exactly the maximum child height tall. -/
theorem advancer_row_width_height (conf : SvgConf) (a : ℚ) (cs : List SvgNode)
    (hne : cs ≠ []) (hflow : ∀ c ∈ cs, plainFlow c = true)
    (hnn : ∀ c ∈ cs, 0 ≤ height conf c) :
    width conf (.mk .group (List.intersperse (.mk (.advancer a 0) []) cs)) =
      (cs.map (width conf)).sum + ((cs.length - 1 : ℕ) : ℚ) * a ∧
    ∃ m, m ∈ cs.map (height conf) ∧ (∀ q ∈ cs.map (height conf), q ≤ m) ∧
      height conf (.mk .group (List.intersperse (.mk (.advancer a 0) []) cs)) = m := by
  have hIne : List.intersperse (SvgNode.mk (.advancer a 0) []) cs ≠ [] :=
    intersperse_ne_nil hne
  have hsepW : width conf (SvgNode.mk (.advancer a 0) []) = a := by simp [width]
  have hsepH : height conf (SvgNode.mk (.advancer a 0) []) = 0 := by simp [height]
  have hmemW : ∀ c ∈ List.intersperse (SvgNode.mk (.advancer a 0) []) cs,
      widthFlow c = true := by
    intro c hc
    rcases mem_intersperse hc with h | h
    · subst h; rfl
    · exact plainFlow_widthFlow (hflow c h)
  have hmemH : ∀ c ∈ List.intersperse (SvgNode.mk (.advancer a 0) []) cs,
      heightFlow c = true := by
    intro c hc
    rcases mem_intersperse hc with h | h
    · subst h; rfl
    · exact plainFlow_heightFlow (hflow c h)
  constructor
  · rw [width_base conf .group _ rfl hIne]
    have hw := widthRuns_flow conf
      (List.intersperse (SvgNode.mk (.advancer a 0) []) cs) [] 0 hmemW
    rw [List.append_nil] at hw
    rw [hw]
    simp only [widthRuns, maxList]
    rw [map_sum_intersperse (width conf) _ cs, hsepW]
    ring
  · refine ⟨(cs.map (height conf)).foldl max 0, ?_, ?_, ?_⟩
    · rcases foldl_max_mem (cs.map (height conf)) 0 with h | h
      · rcases cs with _ | ⟨c0, rest⟩
        · exact absurd rfl hne
        · have hq0 : height conf c0 ∈ (c0 :: rest).map (height conf) := by simp
          have hle : height conf c0 ≤ ((c0 :: rest).map (height conf)).foldl max 0 :=
            foldl_max_le_of_mem _ 0 _ hq0
          rw [h] at hle
          have hge : 0 ≤ height conf c0 := hnn c0 (List.mem_cons_self c0 rest)
          rw [h, ← le_antisymm hle hge]
          exact hq0
      · exact h
    · intro q hq
      exact foldl_max_le_of_mem _ 0 q hq
    · rw [height_base conf .group _ rfl hIne]
      have hh := heightSections_flow conf
        (List.intersperse (SvgNode.mk (.advancer a 0) []) cs) [] [] 0 hmemH
      rw [List.append_nil] at hh
      rw [hh, foldl_max_intersperse (height conf) _ hsepH cs 0 le_rfl]
      simp only [heightSections, maxList, List.nil_append, List.sum_cons, List.sum_nil]
      rw [← List.foldl_map]
      simp

/-- Witness for C5: rectangles of sizes 4×3 and 6×2 separated by a fixed
advance of 5: width 4 + 6 + 5 = 15, height max 3 2 = 3. -/
theorem advancer_row_width_height_witness :
    width conf0 (.mk .group (List.intersperse (.mk (.advancer 5 0) [])
      [SvgNode.mk (.rect 4 3 "f") [], SvgNode.mk (.rect 6 2 "f") []])) =
      (([SvgNode.mk (.rect 4 3 "f") [], SvgNode.mk (.rect 6 2 "f") []].map
        (width conf0)).sum +
        (([SvgNode.mk (.rect 4 3 "f") [], SvgNode.mk (.rect 6 2 "f") []].length - 1 : ℕ) : ℚ) * 5) ∧
    ∃ m, m ∈ [SvgNode.mk (.rect 4 3 "f") [], SvgNode.mk (.rect 6 2 "f") []].map (height conf0) ∧
      (∀ q ∈ [SvgNode.mk (.rect 4 3 "f") [], SvgNode.mk (.rect 6 2 "f") []].map (height conf0), q ≤ m) ∧
      height conf0 (.mk .group (List.intersperse (.mk (.advancer 5 0) [])
        [SvgNode.mk (.rect 4 3 "f") [], SvgNode.mk (.rect 6 2 "f") []])) = m := by
  exact advancer_row_width_height conf0 5
    [SvgNode.mk (.rect 4 3 "f") [], SvgNode.mk (.rect 6 2 "f") []]
    (by simp)
    (by simp [plainFlow, isCursorDirective, SvgNode.kind])
    (by
      intro c hc
      simp only [List.mem_cons, List.not_mem_nil, or_false] at hc
      rcases hc with hc | hc <;> subst hc <;> norm_num [height, intrinsicH])

/-- C6: a root `SvgSvg` holding a 10×10 filled rectangle, a carriage return,
a line feed and a second identical rectangle, generated at `(0, 0)`, emits a
document whose declared height is 20 and width is 10, with the two rect
elements at `(0, 0)` and `(0, 10)`. -/
theorem end_to_end_two_rows (conf : SvgConf) :
    (generate conf (.mk (.svg "svg-chart")
      [SvgNode.mk (.rect 10 10 "rgb(0,0,0)") [], SvgNode.mk .cr [],
        SvgNode.mk .lf [], SvgNode.mk (.rect 10 10 "rgb(0,0,0)") []]) 0 0).2 =
    [Tag.svgOpen "svg-chart" conf.font_family 20 10 conf.font_size,
      Tag.rectTag 0 0 10 10 "rgb(0,0,0)",
      Tag.rectTag 0 10 10 10 "rgb(0,0,0)",
      Tag.svgClose] := by
  norm_num [generate, genChildren, width, widthRuns, height, heightSections,
    maxList, intrinsicW, intrinsicH, genBegin, genEnd]

/-- C7 counterexample: attaching a non-node value to an `SvgAdvancer` raises
the advancer's `RuntimeError`, not a `TypeError` as the claim states (the
overriding `add_child` raises before the base type check can run). -/
theorem add_child_nonNode_advancer_runtime :
    add_child (.mk (.advancer 1 0) []) (.nonNode "a string") =
      .error (.runtimeError "Cannot add child to advancer!") ∧
    isTypeErrorResult (add_child (.mk (.advancer 1 0) []) (.nonNode "a string")) = false := by
  constructor <;> rfl

/-- C7 (amended): attaching anything to a childless-only node (line, rect,
text, centered text, or any of the four directives) fails at the `add_child`
call itself with that class's `RuntimeError`, whatever the argument is;
attaching a non-node value to a node that accepts children fails with
`TypeError`; only a node value attached to an accepting node is appended.
In every failure the child list is unchanged (no updated node is produced). -/
theorem add_child_errors (parent : SvgNode) (v : PyVal) :
    (forbidsChildren parent.kind = true →
      add_child parent v = .error (.runtimeError (childErrMsg parent.kind))) ∧
    (forbidsChildren parent.kind = false → ∀ d, v = .nonNode d →
      add_child parent v = .error (.typeError "Child must be an SvgNode instance")) ∧
    (forbidsChildren parent.kind = false → ∀ c, v = .node c →
      add_child parent v = .ok (.mk parent.kind (parent.children ++ [c]))) := by
  refine ⟨?_, ?_, ?_⟩
  · intro h
    simp [add_child, h]
  · intro h d hv
    subst hv
    simp [add_child, h]
  · intro h c hv
    subst hv
    simp [add_child, h]

/-- Witness for the amended C7: a rectangle rejects a node child with its
`RuntimeError`; a group rejects a non-node with `TypeError` and appends a
node child. -/
theorem add_child_errors_witness :
    add_child (.mk (.rect 1 1 "f") []) (.node (.mk .cr [])) =
      .error (.runtimeError "Cannot add child to rect!") ∧
    add_child (.mk .group []) (.nonNode "42") =
      .error (.typeError "Child must be an SvgNode instance") ∧
    add_child (.mk .group []) (.node (.mk .cr [])) =
      .ok (.mk .group [SvgNode.mk .cr []]) := by
  refine ⟨?_, ?_, ?_⟩
  · exact (add_child_errors (.mk (.rect 1 1 "f") []) (.node (.mk .cr []))).1 rfl
  · exact (add_child_errors (.mk .group []) (.nonNode "42")).2.1 rfl "42" rfl
  · exact (add_child_errors (.mk .group []) (.node (.mk .cr []))).2.2 rfl (.mk .cr []) rfl

/-- C8: when the cairo measurement fails, `text_width` swallows the failure
and returns `len(text) * font_size * (0.7 if bold else 0.65)`. -/
theorem text_width_fallback (conf : SvgConf) (t : String) (b : Bool) (e : String)
    (h : conf.cairoExtents t b = .error e) :
    conf.text_width t b =
      (t.length : ℚ) * conf.font_size * (if b then 7 / 10 else 13 / 20) := by
  rw [SvgConf.text_width]
  by_cases ht : t = ""
  · subst ht
    simp
  · rw [if_neg ht, h]

/-- Witness for C8: with the failing backend of `conf0`, measuring "ab"
non-bold yields 2 × 12 × 0.65 = 15.6. -/
theorem text_width_fallback_witness :
    conf0.cairoExtents "ab" false = .error "cairo unavailable" ∧
    conf0.text_width "ab" false =
      (("ab".length : ℚ)) * conf0.font_size * (if false then 7 / 10 else 13 / 20) := by
  exact ⟨rfl, text_width_fallback conf0 "ab" false "cairo unavailable" rfl⟩

/-- C9: the overlay walk emits exactly one rectangular region per link node
(non-links contribute none), and for a single link wrapper around a text
node generated at `(x, y)` the region carries the link node's stored
bounding box and the trailing path segment of its target. -/
theorem overlay_regions :
    (∀ t : GTree, (gen_html t).length = t.walk.countP (fun n => isLinkNode n)) ∧
    (∀ (conf : SvgConf) (href txt : String) (b : Bool) (x y : ℚ),
      gen_html (generate conf (.mk (.link href) [SvgNode.mk (.text txt b) []]) x y).1 =
        [⟨x, y, x + width conf (.mk (.link href) [SvgNode.mk (.text txt b) []]),
          y + height conf (.mk (.link href) [SvgNode.mk (.text txt b) []]),
          lastSegment href, href⟩]) := by
  constructor
  · intro t
    exact length_filterMap_linkRegion t.walk
  · intro conf href txt b x y
    simp [generate, genChildren, gen_html, GTree.walk, walkList, linkRegion]

/-- C10: during a parent's `generate`, cursor-directive children
(`SvgMoveTo`, `SvgCR`, `SvgLF`) are not recursively generated — they keep
their initial all-zero geometry throughout their subtree and contribute no
markup — while every other child (including `SvgAdvancer`) is recursively
generated at some cursor position and so carries a resolved bounding box;
the emitted markup is exactly `gen_begin`, the concatenation of the
generated children's markup, and `gen_end`. -/
theorem directive_children_skipped (conf : SvgConf) (k : SvgKind)
    (cs : List SvgNode) (x y : ℚ) :
    (generate conf (.mk k cs) x y).1.children.length = cs.length ∧
    (∀ p ∈ cs.zip (generate conf (.mk k cs) x y).1.children,
      (isCursorDirective p.1.kind = true → p.2 = initTree p.1 ∧ allZeroGeom p.2) ∧
      (isCursorDirective p.1.kind = false →
        ∃ cx cy, p.2 = (generate conf p.1 cx cy).1 ∧ geomOk conf p.2)) ∧
    (generate conf (.mk k cs) x y).2 =
      genBegin conf k (generate conf (.mk k cs) x y).1.geom ++
        (cs.zip (generate conf (.mk k cs) x y).1.children).flatMap
          (fun p => if isCursorDirective p.1.kind then []
            else (generate conf p.1 p.2.geom.x1 p.2.geom.y1).2) ++ genEnd k := by
  rw [generate_geom, generate_children]
  refine ⟨genChildren_length conf cs x y 0 0, ?_, ?_⟩
  · intro p hp
    have h := genChildren_mem conf cs x y 0 0 p hp
    refine ⟨h.1, ?_⟩
    intro hf
    obtain ⟨cx, cy, hpe⟩ := h.2 hf
    refine ⟨cx, cy, hpe, ?_⟩
    rw [hpe]
    exact placedNode_geomOk conf _ (placed_generate conf p.1 cx cy)
  · have ht := genChildren_tags conf cs x y 0 0
    simp only [generate]
    rw [ht]

/-- Witness for C10: a group holding a cursor jump and a rectangle,
generated at `(1, 2)`. -/
theorem directive_children_skipped_witness :
    (generate conf0 (.mk .group [SvgNode.mk (.moveTo 3 4) [], SvgNode.mk (.rect 5 6 "f") []]) 1 2).1.children.length = 2 ∧
    (∀ p ∈ [SvgNode.mk (.moveTo 3 4) [], SvgNode.mk (.rect 5 6 "f") []].zip
        (generate conf0 (.mk .group [SvgNode.mk (.moveTo 3 4) [], SvgNode.mk (.rect 5 6 "f") []]) 1 2).1.children,
      (isCursorDirective p.1.kind = true → p.2 = initTree p.1 ∧ allZeroGeom p.2) ∧
      (isCursorDirective p.1.kind = false →
        ∃ cx cy, p.2 = (generate conf0 p.1 cx cy).1 ∧ geomOk conf0 p.2)) := by
  have h := directive_children_skipped conf0 .group
    [SvgNode.mk (.moveTo 3 4) [], SvgNode.mk (.rect 5 6 "f") []] 1 2
  exact ⟨h.1, h.2.1⟩

end SvgGen
